import Mathlib

/-!
Verification of the `ti-appium` device-helper and webdriver-helper layer
(`src/device.js`, `src/webdriver.js`).  The JavaScript functions are embedded
shallowly: stateful code becomes explicit state passing over a file-system
map and an event trace, fallible code returns `Except`, and the external
collaborators (the device registry, the OS process list, `png-crop`,
`node-resemble-js`, `ioslib`) are supplied as explicit parameters whose
contracts follow the specification.
-/

namespace TiAppium

/-! ## String utilities

`strIncludes s sub` models the JavaScript `String.prototype.includes`. -/

def strIncludes (s sub : String) : Bool :=
  (List.range (s.data.length + 1)).any (fun i => sub.data.isPrefixOf (s.data.drop i))

theorem strData_append (a b : String) : (a ++ b).data = a.data ++ b.data := by
  cases a; cases b; rfl

theorem strAppend_assoc (a b c : String) : (a ++ b) ++ c = a ++ (b ++ c) := by
  cases a; cases b; cases c
  show String.mk _ = String.mk _
  simp [String.append, List.append_assoc]

theorem strIncludes_iff (s sub : String) :
    strIncludes s sub = true ↔
      ∃ i, i ≤ s.data.length ∧ sub.data.isPrefixOf (s.data.drop i) := by
  unfold strIncludes
  rw [List.any_eq_true]
  constructor
  · rintro ⟨i, hi, hp⟩
    exact ⟨i, Nat.lt_succ_iff.mp (List.mem_range.mp hi), hp⟩
  · rintro ⟨i, hi, hp⟩
    exact ⟨i, List.mem_range.mpr (Nat.lt_succ_of_le hi), hp⟩

theorem strIncludes_right_end (a s : String) : strIncludes (a ++ s) s = true := by
  rw [strIncludes_iff]
  refine ⟨a.data.length, ?_, ?_⟩
  · rw [strData_append, List.length_append]; omega
  · rw [strData_append, List.drop_left]
    exact List.isPrefixOf_iff_prefix.mpr (List.prefix_refl _)

theorem strIncludes_of_left (a b sub : String) (h : strIncludes a sub = true) :
    strIncludes (a ++ b) sub = true := by
  rw [strIncludes_iff] at h ⊢
  obtain ⟨i, hi, hp⟩ := h
  refine ⟨i, ?_, ?_⟩
  · rw [strData_append, List.length_append]; omega
  · rw [strData_append, List.drop_append_of_le_length hi]
    have h1 : sub.data <+: a.data.drop i := List.isPrefixOf_iff_prefix.mp hp
    exact List.isPrefixOf_iff_prefix.mpr (h1.trans (List.prefix_append _ _))

theorem strIncludes_of_right (a b sub : String) (h : strIncludes b sub = true) :
    strIncludes (a ++ b) sub = true := by
  rw [strIncludes_iff] at h ⊢
  obtain ⟨i, hi, hp⟩ := h
  refine ⟨a.data.length + i, ?_, ?_⟩
  · rw [strData_append, List.length_append]; omega
  · rw [strData_append, List.drop_append]
    exact hp

theorem strIncludes_mid (a s b : String) : strIncludes ((a ++ s) ++ b) s = true :=
  strIncludes_of_left _ _ _ (strIncludes_right_end a s)

/-! ## Device state poller (`isShutdown`, src/device.js lines 193-216)

The JavaScript loop waits `initialWait` ms, then checks the simulator state
every `intervalWait` ms: check number `c` happens at absolute time
`initialWait + c * intervalWait`.  On each check the counter is incremented;
the loop resolves the first time the state equals `"Shutdown"` and rejects
once the counter reaches 20.  The external state source (`getState`) is
modelled as a function from the check number to the reported state string.
The recursion is driven by the remaining budget `fuel`, which the entry
point fixes to `20`, matching the `count >= 20` guard. -/

def timeoutMsg : String :=
  "iOS simulator didn\x27t shutdown in expected time, you may expierience instability"

inductive PollResult
  | confirmed (checks : ℕ)
  | timedOut (msg : String)
deriving DecidableEq

def pollGo (source : ℕ → String) : ℕ → ℕ → PollResult
  | _, 0 => .timedOut timeoutMsg
  | count, fuel + 1 =>
    if source (count + 1) = "Shutdown" then .confirmed (count + 1)
    else if 20 ≤ count + 1 then .timedOut timeoutMsg
    else pollGo source (count + 1) fuel

def isShutdown (source : ℕ → String) (_initialWait _intervalWait : ℕ) : PollResult :=
  pollGo source 0 20

/-- Number of state checks that were performed before the poll settled. -/
def checksMade : PollResult → ℕ
  | .confirmed k => k
  | .timedOut _ => 20

/-- Absolute time (ms after the poll started) of check number `k`:
the `setTimeout(initialWait)` delay plus `k` ticks of the
`setInterval(intervalWait)` timer. -/
def checkTime (initialWait intervalWait k : ℕ) : ℕ :=
  initialWait + k * intervalWait

/-- Time at which the poll settled: the time of its last check. -/
def completionTime (initialWait intervalWait : ℕ) (r : PollResult) : ℕ :=
  checkTime initialWait intervalWait (checksMade r)

theorem pollGo_timeout (source : ℕ → String) :
    ∀ fuel count, count + fuel = 20 →
      (∀ k, count < k → k ≤ 20 → source k ≠ "Shutdown") →
      pollGo source count fuel = .timedOut timeoutMsg := by
  intro fuel
  induction fuel with
  | zero => intro count _ _; rfl
  | succ n ih =>
    intro count h1 h2
    have hne : source (count + 1) ≠ "Shutdown" := h2 _ (by omega) (by omega)
    rw [pollGo, if_neg hne]
    by_cases h20 : 20 ≤ count + 1
    · rw [if_pos h20]
    · rw [if_neg h20]
      exact ih (count + 1) (by omega) (fun k hk1 hk2 => h2 k (by omega) hk2)

theorem pollGo_confirms (source : ℕ → String) :
    ∀ fuel count k, count + fuel = 20 → count < k → k ≤ 20 →
      source k = "Shutdown" →
      (∀ j, count < j → j < k → source j ≠ "Shutdown") →
      pollGo source count fuel = .confirmed k := by
  intro fuel
  induction fuel with
  | zero => intro count k h1 h2 h3 _ _; omega
  | succ n ih =>
    intro count k h1 h2 h3 hk hmin
    rw [pollGo]
    by_cases hc : count + 1 = k
    · rw [if_pos (hc ▸ hk), hc]
    · have hne : source (count + 1) ≠ "Shutdown" := hmin _ (by omega) (by omega)
      rw [if_neg hne, if_neg (by omega : ¬ 20 ≤ count + 1)]
      exact ih (count + 1) k (by omega) (by omega) h3 hk
        (fun j hj1 hj2 => hmin j (by omega) hj2)

theorem checksMade_pollGo_le (source : ℕ → String) :
    ∀ fuel count, count + fuel ≤ 20 →
      checksMade (pollGo source count fuel) ≤ 20 := by
  intro fuel
  induction fuel with
  | zero => intro count _; exact le_refl 20
  | succ n ih =>
    intro count h
    rw [pollGo]
    by_cases hs : source (count + 1) = "Shutdown"
    · rw [if_pos hs]; show count + 1 ≤ 20; omega
    · rw [if_neg hs]
      by_cases h20 : 20 ≤ count + 1
      · rw [if_pos h20]; exact le_refl 20
      · rw [if_neg h20]; exact ih (count + 1) (by omega)

/-! ## Process Query Adapter (`getUdid`, `getAndroidPID`, src/device.js lines 250-300)

`getUdid` parses `ti info -t ios -o json` and indexes
`.ios.simulators.ios[simVersion]`; the registry snapshot is modelled as a
function from the version string to the (optional) list of
`{name, udid}` entries for that version.  A missing version bucket makes the
`for ... of` statement throw, which the `catch` turns into the
"do you have this simulator configured?" error; a present bucket with no
matching name falls through the loop to the plain "Cannot find a UDID" error. -/

structure SimEntry where
  name : String
  udid : String
deriving DecidableEq

def udidConfigMsg (simName simVersion : String) : String :=
  "An issue occured trying to find the UDID of iOS simulator \x22" ++ simName ++
    " (" ++ simVersion ++ ")\x22, do you have this simulator " ++ "configured" ++ "?"

def udidCannotFindMsg (simName simVersion : String) : String :=
  "Cannot find a UDID for simulator " ++ simName ++ " (" ++ simVersion ++ ")"

def getUdid (reg : String → Option (List SimEntry)) (simName simVersion : String) :
    Except String String :=
  match reg simVersion with
  | none => .error (udidConfigMsg simName simVersion)
  | some tiSims =>
    match tiSims.find? (fun tiSim => tiSim.name == simName) with
    | some tiSim => .ok tiSim.udid
    | none => .error (udidCannotFindMsg simName simVersion)

/-- One record of the `ps-list` process snapshot. -/
structure Proc where
  pid : ℕ
  name : String
  cmd : String

def androidPidMsg (deviceName : String) : String :=
  "Cannot find an Android PID for " ++ deviceName

/-- `getAndroidPID` (src/device.js lines 282-300).  The whole body runs in a
`try`: a rejected `ps()` call, or `list.find` returning `undefined` (so that
`proc.pid` throws), all collapse into the single catch-all error. -/
def getAndroidPID (psResult : Except String (List Proc)) (platform deviceName : String) :
    Except String ℕ :=
  match psResult with
  | .error _ => .error (androidPidMsg deviceName)
  | .ok list =>
    match (if platform = "win32"
        then list.find? (fun x => strIncludes x.name "qemu-system-x86_64")
        else list.find? (fun x => strIncludes x.cmd deviceName)) with
    | some proc => .ok proc.pid
    | none => .error (androidPidMsg deviceName)

/-! ## `killSim` (src/device.js lines 54-70)

Effects are recorded in an event trace: the `ti info` execSync inside
`getUdid`, the `xcrun simctl shutdown` execSync, each state check of the
poll loop, and the final fire-and-forget `spawn(killall, [Simulator])`.
The `killallFails` flag models whether that spawned process fails; it has no
channel back into `killSim`, whose promise has already been settled by the
time any spawn error could surface. -/

inductive DevEvent
  | tiInfo
  | execShutdown (udid : String)
  | stateCheck (idx : ℕ) (state : String)
  | spawnKillall
  | getCerts
deriving DecidableEq

def pollEvents (source : ℕ → String) (r : PollResult) : List DevEvent :=
  (List.range (checksMade r)).map (fun i => .stateCheck (i + 1) (source (i + 1)))

def killSim (reg : String → Option (List SimEntry)) (source : ℕ → String)
    (_killallFails : Bool) (simName simVersion : String)
    (initialWait intervalWait : ℕ) : Except String Unit × List DevEvent :=
  if simName = "" then (.error "Empty simulator name argument passed", [])
  else if simVersion = "" then (.error "Empty simulator version passed", [])
  else
    match getUdid reg simName simVersion with
    | .error e => (.error e, [.tiInfo])
    | .ok udid =>
      match isShutdown source initialWait intervalWait with
      | .confirmed k =>
        (.ok (), [.tiInfo, .execShutdown udid] ++
          pollEvents source (.confirmed k) ++ [.spawnKillall])
      | .timedOut msg =>
        (.error msg, [.tiInfo, .execShutdown udid] ++ pollEvents source (.timedOut msg))

/-! ## `getCert` (src/device.js lines 111-140)

On a non-darwin platform the function returns `undefined` immediately.
Otherwise it first awaits the external `ioslib.certs.getCerts()` call
(recorded as a `.getCerts` event) and only then checks the `type` argument
against the valid certificate kinds; `forEach` keeps the last matching
certificate. -/

structure CertEnv where
  platform : String
  getCertsResult : Except String (String → List String)

def invalidCertMsg (type : String) : String :=
  "Argument \x27" ++ type ++ "\x27 is not a valid type of certificate"

def noCertMsg (search : String) : String :=
  "No certificate found with a name including \x27" ++ search ++ "\x27"

def getCert (env : CertEnv) (type search : String) :
    Except String (Option String) × List DevEvent :=
  if env.platform ≠ "darwin" then (.ok none, [])
  else
    match env.getCertsResult with
    | .error e => (.error e, [.getCerts])
    | .ok certs =>
      if (["developer", "distribution"] : List String).contains type then
        match ((certs type).filter (fun cert => strIncludes cert search)).getLast? with
        | some cert => (.ok (some cert), [.getCerts])
        | none => (.error (noCertMsg search), [.getCerts])
      else
        (.error (invalidCertMsg type), [.getCerts])

/-! ## Image crop / diff pipeline (src/webdriver.js: `processImg`, `cropImg`, `compImg`)

The file system is a map from paths to file contents (the decoded screenshot
bytes are represented by the base64 string itself).  The two external
engines are supplied through `ImgEnv`:

* `cropResult` — the `png-crop` utility.  Modelled from the spec: given a
  path and a rectangular region it rewrites the file cropped to that region
  (here: a function from the old contents and the region to the new contents
  or an error), and it no-ops gracefully if the region is absent — `png-crop`
  itself is a third-party collaborator whose code is not part of this
  repository.
* `mismatch` — the `node-resemble-js` perceptual diff engine.  Modelled from
  the spec: given two image paths it yields a mismatch percentage. -/

abbrev FS := String → Option String

def fsWrite (fs : FS) (p c : String) : FS := fun q => if q = p then some c else fs q

def fsDelete (fs : FS) (p : String) : FS := fun q => if q = p then none else fs q

structure Dimensions where
  height : ℕ
  width : ℕ
  top : ℕ
deriving DecidableEq

structure ImgEnv where
  cropResult : String → Dimensions → Except String String
  mismatch : String → String → ℚ

inductive ImgEvent
  | write (p : String)
  | cropCall (p : String)
  | compare (test ref : String)
  | unlink (p : String)
deriving DecidableEq

/-- The `png-crop` invocation `pngcrop.crop(imgPath, imgPath, dimensions, cb)`.
Modelled from the spec: the crop utility rewrites the file in place and
no-ops gracefully when the region is absent. -/
def cropExternal (env : ImgEnv) (fs : FS) (p : String) (dims : Option Dimensions) :
    Except String Unit × FS :=
  match dims with
  | none => (.ok (), fs)
  | some d =>
    match fs p with
    | none => (.error "crop: no such file", fs)
    | some content =>
      match env.cropResult content d with
      | .ok cropped => (.ok (), fsWrite fs p cropped)
      | .error e => (.error e, fs)

/-- `cropImg` (src/webdriver.js lines 1430-1445).  When `dimensions` is
absent the executor calls `resolve()` but — lacking an early `return` —
still invokes `pngcrop.crop`; since a promise keeps its first settlement,
the call resolves (with `undefined`) regardless of what the crop callback
later does, and per the collaborator contract the file is untouched. -/
def cropImg (env : ImgEnv) (fs : FS) (imgPath : String) (dims : Option Dimensions) :
    Except String (Option String) × FS :=
  let out := cropExternal env fs imgPath dims
  match dims with
  | none => (.ok none, out.2)
  | some _ =>
    match out.1 with
    | .ok _ => (.ok (some imgPath), out.2)
    | .error e => (.error e, out.2)

def compMsg (threshold difference : ℚ) : String :=
  "Images didn\x27t meet required threshold, wanted below: " ++ toString threshold ++
    "%, got: " ++ toString difference ++ "%"

/-- `compImg` (src/webdriver.js lines 1457-1475).  `let threshold = 0.10;
if (thresh) threshold = thresh;` — a falsy `thresh` (absent or `0`) keeps
the 0.10 default.  On a pass the candidate is `unlinkSync`ed; on a fail the
promise rejects with a message carrying both numbers and the candidate is
kept. -/
def compImg (env : ImgEnv) (fs : FS) (testImg reference : String) (thresh : Option ℚ) :
    Except String Unit × FS × List ImgEvent :=
  let threshold : ℚ :=
    match thresh with
    | some t => if t = 0 then 1/10 else t
    | none => 1/10
  let difference := env.mismatch testImg reference
  if difference ≤ threshold then
    (.ok (), fsDelete fs testImg, [.compare testImg reference, .unlink testImg])
  else
    (.error (compMsg threshold difference), fs, [.compare testImg reference])

/-- `path.basename`. -/
def basename (p : String) : String := ((p.splitOn "/").getLast?).getD p

/-- Split a base name into the `name` and `ext` of `path.parse` (the extension
starts at the last dot, except when that dot is the first character). -/
def extSplit (b : String) : String × String :=
  let rev := b.data.reverse
  let afterDot := rev.takeWhile (fun c => c ≠ '.')
  if afterDot.length = rev.length then (b, "")
  else if afterDot.length + 1 = rev.length then (b, "")
  else (⟨(rev.drop (afterDot.length + 1)).reverse⟩, ⟨'.' :: afterDot.reverse⟩)

/-- The derived candidate path `<modRoot>/Screen_Shots/<name>_Test<ext>`
built by the non-overwrite branch of `processImg` via `path.parse`/`path.format`. -/
def candidatePath (file modRoot : String) : String :=
  modRoot ++ "/Screen_Shots/" ++ (extSplit (basename file)).1 ++ "_Test" ++
    (extSplit (basename file)).2

/-- `processImg` (src/webdriver.js lines 1386-1421).  With `overwrite` the
screenshot is written straight to the reference path and cropped — no
comparison.  Otherwise it is written to the derived `_Test` candidate path,
cropped, and compared against the reference. -/
def processImg (env : ImgEnv) (fs : FS) (file modRoot screenshot : String)
    (thresh : Option ℚ) (overwrite : Bool) (dims : Option Dimensions) :
    Except String Unit × FS × List ImgEvent :=
  if overwrite then
    match (cropImg env (fsWrite fs file screenshot) file dims).1 with
    | .ok _ =>
      (.ok (), (cropImg env (fsWrite fs file screenshot) file dims).2,
        [.write file, .cropCall file])
    | .error e =>
      (.error e, (cropImg env (fsWrite fs file screenshot) file dims).2,
        [.write file, .cropCall file])
  else
    match (cropImg env (fsWrite fs (candidatePath file modRoot) screenshot)
        (candidatePath file modRoot) dims).1 with
    | .error e =>
      (.error e,
        (cropImg env (fsWrite fs (candidatePath file modRoot) screenshot)
          (candidatePath file modRoot) dims).2,
        [.write (candidatePath file modRoot), .cropCall (candidatePath file modRoot)])
    | .ok _ =>
      ((compImg env
          (cropImg env (fsWrite fs (candidatePath file modRoot) screenshot)
            (candidatePath file modRoot) dims).2
          (candidatePath file modRoot) file thresh).1,
       (compImg env
          (cropImg env (fsWrite fs (candidatePath file modRoot) screenshot)
            (candidatePath file modRoot) dims).2
          (candidatePath file modRoot) file thresh).2.1,
       [.write (candidatePath file modRoot), .cropCall (candidatePath file modRoot)] ++
         (compImg env
            (cropImg env (fsWrite fs (candidatePath file modRoot) screenshot)
              (candidatePath file modRoot) dims).2
            (candidatePath file modRoot) file thresh).2.2)

/-! ## Text-matching casing rule (`elementText`, src/webdriver.js lines 712-745)

`titleCase` replicates `str.replace(/\w\S*\/g, txt => txt.charAt(0).toUpperCase()
+ txt.substr(1).toLowerCase())`: scanning left to right, a word character not
inside a match starts a match and is upper-cased, every further non-space
character of the match is lower-cased, and whitespace ends the match.

The version guard is `parseFloat(platformVersion).toFixed(2) >= 7.0`: the
parsed version (a rational here) is rounded to two decimal places — ties to
the larger value, as `toFixed` does — before being compared with 7. -/

def isWordChar (c : Char) : Bool := c.isAlpha || c.isDigit || c = '_'

def titleCaseGo : Bool → List Char → List Char
  | _, [] => []
  | inMatch, c :: rest =>
    if c.isWhitespace then c :: titleCaseGo false rest
    else if inMatch then c.toLower :: titleCaseGo true rest
    else if isWordChar c then c.toUpper :: titleCaseGo true rest
    else c :: titleCaseGo false rest

def titleCase (s : String) : String := ⟨titleCaseGo false s.data⟩

/-- JavaScript `toUpperCase` (ASCII). -/
def strToUpper (s : String) : String := ⟨s.data.map Char.toUpper⟩

/-- `parseFloat(v).toFixed(2)` re-read as a number by the `>=` coercion. -/
def toFixed2 (v : ℚ) : ℚ := (⌊v * 100 + 1/2⌋ : ℚ) / 100

/-- The Android branch of `elementText`: how the search text is altered
before being put into the `UiSelector`. -/
def normalizeAndroidText (text : String) (preserve : Bool) (version : ℚ) : String :=
  if 7 ≤ toFixed2 version then
    if !preserve then strToUpper text else text
  else
    if !preserve then titleCase text else text

/-- `elementText` dispatch: iOS looks the text up as an id unchanged;
Android builds a `UiSelector` from the normalized text; any other platform
falls through the `switch` to `undefined`. -/
def elementText (platform : String) (version : ℚ) (text : String) (preserve : Bool) :
    Option String :=
  if platform = "iOS" then some ("elementById(" ++ text ++ ")")
  else if platform = "Android" then
    some ("new UiSelector().text(\x22" ++ normalizeAndroidText text preserve version ++ "\x22)")
  else none

/-! ## Claim theorems -/

/-- C1: For every `initialWait` and `intervalWait`, the shutdown poll loop
(`isShutdown`) terminates (it is a total function): it performs at most 20
state checks, check `k` happening at `initialWait + k * intervalWait` ms —
so the first check comes after the `initialWait` delay and consecutive
checks are spaced `intervalWait` apart — and when no check observes the
target state `"Shutdown"` it rejects with the timeout error at time
`initialWait + 20 * intervalWait`, never polling forever. -/
theorem c1_isShutdown_bounded (source : ℕ → String) (iw ivw : ℕ) :
    checksMade (isShutdown source iw ivw) ≤ 20 ∧
    checkTime iw ivw 1 = iw + ivw ∧
    iw ≤ checkTime iw ivw 1 ∧
    (∀ k, checkTime iw ivw (k + 1) = checkTime iw ivw k + ivw) ∧
    completionTime iw ivw (isShutdown source iw ivw) ≤ iw + 20 * ivw ∧
    ((∀ k, 1 ≤ k → k ≤ 20 → source k ≠ "Shutdown") →
      isShutdown source iw ivw = .timedOut timeoutMsg ∧
      completionTime iw ivw (isShutdown source iw ivw) = iw + 20 * ivw) := by
  have hle : checksMade (isShutdown source iw ivw) ≤ 20 :=
    checksMade_pollGo_le source 20 0 (by omega)
  refine ⟨hle, ?_, ?_, ?_, ?_, ?_⟩
  · show iw + 1 * ivw = iw + ivw; ring
  · show iw ≤ iw + 1 * ivw; omega
  · intro k; show iw + (k + 1) * ivw = iw + k * ivw + ivw; ring
  · show iw + checksMade (isShutdown source iw ivw) * ivw ≤ iw + 20 * ivw
    exact Nat.add_le_add_left (Nat.mul_le_mul_right ivw hle) iw
  · intro h
    have ht : isShutdown source iw ivw = .timedOut timeoutMsg :=
      pollGo_timeout source 20 0 (by omega) (fun k hk1 hk2 => h k hk1 hk2)
    exact ⟨ht, by rw [ht]; rfl⟩

def c1Source : ℕ → String := fun _ => "Booted"

/-- Witness for C1 at a source that never reports shutdown. -/
theorem c1_witness :
    isShutdown c1Source 0 10 = .timedOut timeoutMsg ∧
    completionTime 0 10 (isShutdown c1Source 0 10) = 0 + 20 * 10 :=
  (c1_isShutdown_bounded c1Source 0 10).2.2.2.2.2
    (fun _ _ _ => by show ("Booted" : String) ≠ "Shutdown"; decide)

/-- C5: `isShutdown` resolves (confirms) at the first check whose queried
state equals `"Shutdown"` exactly, even if earlier checks observed other
states, and in that case it does not report a timeout. -/
theorem c5_isShutdown_first_confirm (source : ℕ → String) (iw ivw k : ℕ)
    (h1 : 1 ≤ k) (h2 : k ≤ 20) (h3 : source k = "Shutdown")
    (h4 : ∀ j, 1 ≤ j → j < k → source j ≠ "Shutdown") :
    isShutdown source iw ivw = .confirmed k ∧
    (∀ msg, isShutdown source iw ivw ≠ .timedOut msg) ∧
    completionTime iw ivw (isShutdown source iw ivw) = iw + k * ivw := by
  have hc : isShutdown source iw ivw = .confirmed k :=
    pollGo_confirms source 20 0 k (by omega) (by omega) h2 h3
      (fun j hj1 hj2 => h4 j hj1 hj2)
  refine ⟨hc, ?_, by rw [hc]; rfl⟩
  intro msg h
  rw [hc] at h
  exact PollResult.noConfusion h

def c5Source : ℕ → String := fun n => if n < 3 then "Booted" else "Shutdown"

/-- Witness for C5: against a source reporting "Booted","Booted","Shutdown"
on successive checks, the poller confirms on the 3rd check, no timeout. -/
theorem c5_witness :
    isShutdown c5Source 0 10 = .confirmed 3 ∧
    completionTime 0 10 (isShutdown c5Source 0 10) = 0 + 3 * 10 := by
  have h := c5_isShutdown_first_confirm c5Source 0 10 3 (by decide) (by decide)
    (by decide)
    (fun j _ hj2 => by
      show (if j < 3 then ("Booted" : String) else "Shutdown") ≠ "Shutdown"
      rw [if_pos hj2]
      decide)
  exact ⟨h.1, h.2.2⟩

/-- C6 (amended): when the shutdown poll resolves with confirmation,
`killSim` performs the trailing best-effort cleanup (`killall Simulator`,
spawned fire-and-forget so its failure cannot propagate — the result does
not depend on whether the spawned process fails); but when the poll times
out, the rejection propagates to the caller and the cleanup is NOT
performed. -/
theorem c6_killSim_cleanup (reg : String → Option (List SimEntry)) (source : ℕ → String)
    (kf : Bool) (simName simVersion udid : String) (iw ivw : ℕ)
    (h1 : simName ≠ "") (h2 : simVersion ≠ "")
    (h3 : getUdid reg simName simVersion = .ok udid) :
    (∀ k, isShutdown source iw ivw = .confirmed k →
      killSim reg source kf simName simVersion iw ivw =
        killSim reg source (!kf) simName simVersion iw ivw ∧
      (killSim reg source kf simName simVersion iw ivw).1 = .ok () ∧
      DevEvent.spawnKillall ∈ (killSim reg source kf simName simVersion iw ivw).2) ∧
    (∀ msg, isShutdown source iw ivw = .timedOut msg →
      (killSim reg source kf simName simVersion iw ivw).1 = .error msg ∧
      DevEvent.spawnKillall ∉ (killSim reg source kf simName simVersion iw ivw).2) := by
  have hbody : ∀ b, killSim reg source b simName simVersion iw ivw =
      (match isShutdown source iw ivw with
       | .confirmed k =>
         (.ok (), [DevEvent.tiInfo, .execShutdown udid] ++
           pollEvents source (.confirmed k) ++ [.spawnKillall])
       | .timedOut msg =>
         (.error msg, [DevEvent.tiInfo, .execShutdown udid] ++
           pollEvents source (.timedOut msg))) := by
    intro b
    unfold killSim
    rw [if_neg h1, if_neg h2, h3]
  constructor
  · intro k hk
    rw [hbody kf, hbody (!kf), hk]
    exact ⟨rfl, rfl, by simp⟩
  · intro msg hm
    rw [hbody kf, hm]
    refine ⟨rfl, ?_⟩
    simp [pollEvents]

def c6Reg : String → Option (List SimEntry) :=
  fun v => if v = "13.0" then some [⟨"iPhone 7", "UDID-7"⟩] else none

def c6SourceBooted : ℕ → String := fun _ => "Booted"

def c6SourceDown : ℕ → String := fun _ => "Shutdown"

/-- C6 counterexample: with a registered simulator and a state source that
never reports `"Shutdown"`, `killSim` rejects with the poll timeout error
and the `killall Simulator` cleanup is never spawned — so completion by
timeout does not run the trailing cleanup, contrary to the claim. -/
theorem c6_counterexample :
    (killSim c6Reg c6SourceBooted false "iPhone 7" "13.0" 0 10).1 =
      .error timeoutMsg ∧
    DevEvent.spawnKillall ∉ (killSim c6Reg c6SourceBooted false "iPhone 7" "13.0" 0 10).2 :=
  ⟨rfl, by decide⟩

/-- Witness for C6 on the confirmation path. -/
theorem c6_witness :
    (killSim c6Reg c6SourceDown true "iPhone 7" "13.0" 0 10).1 = .ok () ∧
    DevEvent.spawnKillall ∈ (killSim c6Reg c6SourceDown true "iPhone 7" "13.0" 0 10).2 := by
  have h := (c6_killSim_cleanup c6Reg c6SourceDown true "iPhone 7" "13.0" "UDID-7" 0 10
    (by decide) (by decide) rfl).1 1 rfl
  exact ⟨h.2.1, h.2.2⟩

/-- C7 (amended): for every device name/version pair absent from the
registry snapshot (iOS) or from the live process list (Android), resolution
fails by throwing a descriptive error that names the device and never
returns a default, empty, or undefined native id; the iOS-path error
suggests the simulator may not be configured when the version bucket is
missing, while a present bucket with no matching name yields the plain
`Cannot find a UDID` error, which names the device but carries no
configuration suggestion. -/
theorem c7_resolution_fails (reg : String → Option (List SimEntry))
    (simName simVersion platform deviceName : String)
    (psResult : Except String (List Proc)) :
    (reg simVersion = none →
      getUdid reg simName simVersion = .error (udidConfigMsg simName simVersion) ∧
      strIncludes (udidConfigMsg simName simVersion) simName = true ∧
      strIncludes (udidConfigMsg simName simVersion) simVersion = true ∧
      strIncludes (udidConfigMsg simName simVersion) "configured" = true) ∧
    (∀ sims, reg simVersion = some sims →
      sims.find? (fun tiSim => tiSim.name == simName) = none →
      getUdid reg simName simVersion = .error (udidCannotFindMsg simName simVersion) ∧
      strIncludes (udidCannotFindMsg simName simVersion) simName = true ∧
      strIncludes (udidCannotFindMsg simName simVersion) simVersion = true) ∧
    (∀ procs, psResult = .ok procs →
      (if platform = "win32"
        then procs.find? (fun x => strIncludes x.name "qemu-system-x86_64")
        else procs.find? (fun x => strIncludes x.cmd deviceName)) = none →
      getAndroidPID psResult platform deviceName = .error (androidPidMsg deviceName) ∧
      strIncludes (androidPidMsg deviceName) deviceName = true) ∧
    (∀ e, psResult = .error e →
      getAndroidPID psResult platform deviceName = .error (androidPidMsg deviceName)) := by
  refine ⟨?_, ?_, ?_, ?_⟩
  · intro h
    refine ⟨by unfold getUdid; rw [h], ?_, ?_, ?_⟩
    · exact strIncludes_of_left _ _ _ (strIncludes_of_left _ _ _
        (strIncludes_of_left _ _ _ (strIncludes_of_left _ _ _
          (strIncludes_of_left _ _ _ (strIncludes_right_end _ _)))))
    · exact strIncludes_of_left _ _ _ (strIncludes_of_left _ _ _
        (strIncludes_of_left _ _ _ (strIncludes_right_end _ _)))
    · exact strIncludes_of_left _ _ _ (strIncludes_right_end _ _)
  · intro sims hsome hfind
    refine ⟨by simp only [getUdid, hsome, hfind], ?_, ?_⟩
    · exact strIncludes_of_left _ _ _ (strIncludes_of_left _ _ _
        (strIncludes_of_left _ _ _ (strIncludes_right_end _ _)))
    · exact strIncludes_of_left _ _ _ (strIncludes_right_end _ _)
  · intro procs hok hfind
    refine ⟨by simp only [getAndroidPID, hok, hfind], strIncludes_right_end _ _⟩
  · intro e herr
    simp only [getAndroidPID, herr]

def c7wReg : String → Option (List SimEntry) := fun _ => none

/-- Witness for C7: a registry with no bucket for the requested version. -/
theorem c7_witness :
    getUdid c7wReg "iPhone 7" "13.0" = .error (udidConfigMsg "iPhone 7" "13.0") ∧
    strIncludes (udidConfigMsg "iPhone 7" "13.0") "configured" = true := by
  have h := (c7_resolution_fails c7wReg "iPhone 7" "13.0" "darwin" "emu"
    (.ok [])).1 rfl
  exact ⟨h.1, h.2.2.2⟩

def c7Reg : String → Option (List SimEntry) :=
  fun v => if v = "13.0" then some [⟨"iPhone X", "UDID-X"⟩] else none

/-- C7 counterexample: the version bucket "13.0" exists but holds no
simulator named "iPhone 7"; resolution fails with the message
`Cannot find a UDID for simulator iPhone 7 (13.0)`, which does not suggest
that the simulator may not be configured. -/
theorem c7_counterexample :
    getUdid c7Reg "iPhone 7" "13.0" =
      .error "Cannot find a UDID for simulator iPhone 7 (13.0)" ∧
    strIncludes "Cannot find a UDID for simulator iPhone 7 (13.0)" "configured" = false :=
  ⟨rfl, by decide⟩

/-- C8 (amended): the missing/empty-argument configuration errors of
`killSim` fail immediately and synchronously, before any external command
(the event trace is empty); but the invalid-certificate-type check of `getCert`
runs only after the external `ioslib.certs.getCerts()` call has been
awaited, so that configuration error is raised with the external call
already made (trace `[getCerts]`). -/
theorem c8_config_errors (reg : String → Option (List SimEntry)) (source : ℕ → String)
    (kf : Bool) (simName simVersion : String) (iw ivw : ℕ)
    (env : CertEnv) (type search : String) (certs : String → List String)
    (hplat : env.platform = "darwin")
    (hok : env.getCertsResult = .ok certs)
    (hty : (["developer", "distribution"] : List String).contains type = false) :
    killSim reg source kf "" simVersion iw ivw =
      (.error "Empty simulator name argument passed", []) ∧
    (simName ≠ "" →
      killSim reg source kf simName "" iw ivw =
        (.error "Empty simulator version passed", [])) ∧
    getCert env type search = (.error (invalidCertMsg type), [DevEvent.getCerts]) := by
  refine ⟨rfl, ?_, ?_⟩
  · intro h
    unfold killSim
    rw [if_neg h]
    rfl
  · unfold getCert
    rw [hplat, if_neg (by simp), hok, hty]
    rfl

def c8Env : CertEnv := ⟨"darwin", .ok (fun _ => [])⟩

/-- Witness for C8: an invalid certificate type on darwin. -/
theorem c8_witness :
    getCert c8Env "bogus" "Apple" = (.error (invalidCertMsg "bogus"), [DevEvent.getCerts]) :=
  (c8_config_errors (fun _ => none) (fun _ => "") false "x" "x" 0 0 c8Env "bogus" "Apple"
    (fun _ => []) rfl rfl (by decide)).2.2

/-- C8 counterexample: on darwin with the invalid certificate type "bogus",
`getCert` raises the configuration error only after the external
`ioslib.certs.getCerts()` library call — the external-call trace is not
empty, so the failure is not "before any external library call". -/
theorem c8_counterexample :
    (getCert c8Env "bogus" "Apple").1 = .error (invalidCertMsg "bogus") ∧
    DevEvent.getCerts ∈ (getCert c8Env "bogus" "Apple").2 :=
  ⟨rfl, by decide⟩

theorem compImg_some (env : ImgEnv) (fs : FS) (testImg reference : String) (t : ℚ)
    (ht : t ≠ 0) :
    compImg env fs testImg reference (some t) =
      if env.mismatch testImg reference ≤ t then
        (.ok (), fsDelete fs testImg,
          [.compare testImg reference, .unlink testImg])
      else
        (.error (compMsg t (env.mismatch testImg reference)), fs,
          [.compare testImg reference]) := by
  unfold compImg
  simp only [if_neg ht]

/-- C2: with an effective (non-falsy) threshold `t`, the comparison step
(`compImg`) deletes the candidate file if and only if the mismatch
percentage is at most `t`; when the mismatch exceeds `t` it raises an error
whose message contains both the threshold and the actual mismatch
percentage, and the candidate file is retained (the file system is
unchanged). -/
theorem c2_compImg_threshold (env : ImgEnv) (fs : FS) (testImg reference : String)
    (t : ℚ) (ht : t ≠ 0) :
    (ImgEvent.unlink testImg ∈ (compImg env fs testImg reference (some t)).2.2 ↔
      env.mismatch testImg reference ≤ t) ∧
    (env.mismatch testImg reference ≤ t →
      (compImg env fs testImg reference (some t)).1 = .ok () ∧
      (compImg env fs testImg reference (some t)).2.1 testImg = none) ∧
    (t < env.mismatch testImg reference →
      (compImg env fs testImg reference (some t)).1 =
        .error (compMsg t (env.mismatch testImg reference)) ∧
      (compImg env fs testImg reference (some t)).2.1 = fs ∧
      strIncludes (compMsg t (env.mismatch testImg reference)) (toString t) = true ∧
      strIncludes (compMsg t (env.mismatch testImg reference))
        (toString (env.mismatch testImg reference)) = true) := by
  rw [compImg_some env fs testImg reference t ht]
  by_cases hd : env.mismatch testImg reference ≤ t
  · rw [if_pos hd]
    refine ⟨by simp [hd], ?_, ?_⟩
    · intro _
      exact ⟨rfl, by simp [fsDelete]⟩
    · intro hlt
      exact absurd hd (not_le.mpr hlt)
  · rw [if_neg hd]
    refine ⟨by simp [hd], fun hle => absurd hle hd, ?_⟩
    intro _
    refine ⟨rfl, rfl, ?_, ?_⟩
    · unfold compMsg
      exact strIncludes_of_left _ _ _ (strIncludes_of_left _ _ _
        (strIncludes_of_left _ _ _ (strIncludes_right_end _ _)))
    · unfold compMsg
      exact strIncludes_of_left _ _ _ (strIncludes_right_end _ _)

def c2Env : ImgEnv := ⟨fun _ _ => .ok "", fun _ _ => 2/5⟩

def c2Fs : FS := fun _ => none

/-- Witness for C2: threshold 0.3 with an actual mismatch of 0.4. -/
theorem c2_witness :
    (compImg c2Env c2Fs "ref_Test.png" "ref.png" (some (3/10))).1 =
      .error (compMsg (3/10) (2/5)) ∧
    strIncludes (compMsg (3/10) (2/5)) (toString ((3 : ℚ)/10)) = true ∧
    strIncludes (compMsg (3/10) (2/5)) (toString ((2 : ℚ)/5)) = true := by
  have h := (c2_compImg_threshold c2Env c2Fs "ref_Test.png" "ref.png" (3/10)
    (by norm_num)).2.2 (by norm_num [c2Env])
  exact ⟨h.1, h.2.2.1, h.2.2.2⟩

/-- C10: when `compImg` is invoked with a falsy threshold (absent, or
exactly 0), the value given by the caller is discarded and the default 0.10
is used instead: calling with threshold 0 behaves exactly like calling with
the default, and an image pair with any positive mismatch percentage up to
0.10 still passes (candidate deleted) even though the caller asked for 0. -/
theorem c10_compImg_default_threshold (env : ImgEnv) (fs : FS)
    (testImg reference : String) :
    compImg env fs testImg reference (some 0) = compImg env fs testImg reference none ∧
    compImg env fs testImg reference (some 0) =
      compImg env fs testImg reference (some (1/10)) ∧
    (0 < env.mismatch testImg reference → env.mismatch testImg reference ≤ 1/10 →
      (compImg env fs testImg reference (some 0)).1 = .ok () ∧
      ImgEvent.unlink testImg ∈ (compImg env fs testImg reference (some 0)).2.2) := by
  have h1 : compImg env fs testImg reference (some 0) =
      compImg env fs testImg reference (some (1/10)) := by
    unfold compImg
    norm_num
  refine ⟨by unfold compImg; norm_num, h1, ?_⟩
  intro _ hle
  rw [h1, compImg_some env fs testImg reference (1/10) (by norm_num), if_pos hle]
  exact ⟨rfl, by simp⟩

def c10Env : ImgEnv := ⟨fun _ _ => .ok "", fun _ _ => 1/20⟩

def c10Fs : FS := fun _ => none

/-- Witness for C10: the caller asks for threshold 0, the mismatch is a
positive 5%, and the comparison still passes. -/
theorem c10_witness :
    (compImg c10Env c10Fs "ref_Test.png" "ref.png" (some 0)).1 = .ok () ∧
    ImgEvent.unlink "ref_Test.png" ∈
      (compImg c10Env c10Fs "ref_Test.png" "ref.png" (some 0)).2.2 :=
  (c10_compImg_default_threshold c10Env c10Fs "ref_Test.png" "ref.png").2.2
    (by norm_num [c10Env]) (by norm_num [c10Env])

/-- C3: for every image path, `cropImg` with an absent region resolves
successfully (the executor calls `resolve()` before the crop utility can
settle anything) and the file system — in particular the bytes of the
image file — is unchanged: the full image is retained and, per the crop
utility contract, the file is not altered. -/
theorem c3_cropImg_absent_noop (env : ImgEnv) (fs : FS) (imgPath : String) :
    (cropImg env fs imgPath none).1 = .ok none ∧
    (∀ q, (cropImg env fs imgPath none).2 q = fs q) :=
  ⟨rfl, fun _ => rfl⟩

theorem processImg_overwrite_eq (env : ImgEnv) (fs : FS)
    (file modRoot screenshot : String) (thresh : Option ℚ) (dims : Option Dimensions) :
    processImg env fs file modRoot screenshot thresh true dims =
      (match (cropImg env (fsWrite fs file screenshot) file dims).1 with
       | .ok _ => Except.ok ()
       | .error e => Except.error e,
       (cropImg env (fsWrite fs file screenshot) file dims).2,
       [ImgEvent.write file, ImgEvent.cropCall file]) := by
  unfold processImg
  cases h : (cropImg env (fsWrite fs file screenshot) file dims).1 <;> rfl

/-- C4: for every call to `processImg` with `overwrite = true`, the
comparison step is never invoked (no compare event is in the trace): the
screenshot bytes are written directly to the reference path and cropped,
and the operation succeeds whenever the write and crop succeed — no
threshold check can fail it. -/
theorem c4_processImg_overwrite (env : ImgEnv) (fs : FS)
    (file modRoot screenshot : String) (thresh : Option ℚ) (dims : Option Dimensions) :
    (∀ a b, ImgEvent.compare a b ∉
      (processImg env fs file modRoot screenshot thresh true dims).2.2) ∧
    (dims = none →
      (processImg env fs file modRoot screenshot thresh true dims).1 = .ok () ∧
      (processImg env fs file modRoot screenshot thresh true dims).2.1 file =
        some screenshot) ∧
    (∀ d cropped, dims = some d → env.cropResult screenshot d = .ok cropped →
      (processImg env fs file modRoot screenshot thresh true dims).1 = .ok () ∧
      (processImg env fs file modRoot screenshot thresh true dims).2.1 file =
        some cropped) := by
  have hfsw : fsWrite fs file screenshot file = some screenshot := by simp [fsWrite]
  refine ⟨?_, ?_, ?_⟩
  · intro a b
    rw [processImg_overwrite_eq]
    simp
  · intro h
    subst h
    rw [processImg_overwrite_eq]
    exact ⟨rfl, hfsw⟩
  · intro d cropped h hcr
    subst h
    have h2 : cropImg env (fsWrite fs file screenshot) file (some d) =
        (.ok (some file), fsWrite (fsWrite fs file screenshot) file cropped) := by
      simp only [cropImg, cropExternal, hfsw, hcr]
    rw [processImg_overwrite_eq, h2]
    exact ⟨rfl, by simp [fsWrite]⟩

def c4Env : ImgEnv := ⟨fun c _ => .ok c, fun _ _ => 0⟩

def c4Fs : FS := fun _ => none

/-- Witness for C4: overwrite mode with no crop region. -/
theorem c4_witness :
    (processImg c4Env c4Fs "Screen.png" "/app" "IMG" none true none).1 = .ok () ∧
    (processImg c4Env c4Fs "Screen.png" "/app" "IMG" none true none).2.1 "Screen.png" =
      some "IMG" :=
  (c4_processImg_overwrite c4Env c4Fs "Screen.png" "/app" "IMG" none none).2.1 rfl

/-- C9 (amended): on Android, `elementText` compares the parsed platform
version only after rounding it to two decimal places
(`parseFloat(...).toFixed(2)`): when the rounded value is below 7.0 and
`preserve` is not set the search text is title-cased; when it is at or
above 7.0 the text is upper-cased; with `preserve = true` the original
casing is used unchanged in both cases. -/
theorem c9_elementText_casing (text : String) (version : ℚ) :
    elementText "Android" version text true =
      some ("new UiSelector().text(\x22" ++ text ++ "\x22)") ∧
    (toFixed2 version < 7 →
      elementText "Android" version text false =
        some ("new UiSelector().text(\x22" ++ titleCase text ++ "\x22)")) ∧
    (7 ≤ toFixed2 version →
      elementText "Android" version text false =
        some ("new UiSelector().text(\x22" ++ strToUpper text ++ "\x22)")) := by
  have hand : ∀ p t, elementText "Android" version t p =
      some ("new UiSelector().text(\x22" ++ normalizeAndroidText t p version ++ "\x22)") := by
    intro p t
    unfold elementText
    rw [if_neg (by decide), if_pos rfl]
  refine ⟨?_, ?_, ?_⟩
  · rw [hand]
    unfold normalizeAndroidText
    by_cases h7 : 7 ≤ toFixed2 version
    · rw [if_pos h7]; rfl
    · rw [if_neg h7]; rfl
  · intro hlt
    rw [hand]
    unfold normalizeAndroidText
    rw [if_neg (not_le.mpr hlt)]
    rfl
  · intro hge
    rw [hand]
    unfold normalizeAndroidText
    rw [if_pos hge]
    rfl

/-- Witness for C9 at platform version 6 (title-case branch). -/
theorem c9_witness :
    elementText "Android" 6 "hello world" false =
      some ("new UiSelector().text(\x22" ++ titleCase "hello world" ++ "\x22)") :=
  (c9_elementText_casing "hello world" 6).2.1 (by norm_num [toFixed2])

/-- C9 counterexample: platform version 6.999 is below the threshold 7.0,
yet `parseFloat("6.999").toFixed(2)` rounds it to `"7.00"`, so the code
upper-cases the text instead of title-casing it as the claim requires. -/
theorem c9_counterexample :
    (6999/1000 : ℚ) < 7 ∧
    normalizeAndroidText "hello world" false (6999/1000) = "HELLO WORLD" ∧
    titleCase "hello world" = "Hello World" ∧
    ("HELLO WORLD" : String) ≠ "Hello World" := by
  refine ⟨by norm_num, ?_, by decide, by decide⟩
  have h : (7 : ℚ) ≤ toFixed2 (6999/1000) := by norm_num [toFixed2]
  rw [normalizeAndroidText, if_pos h]
  decide

end TiAppium
